import Mathlib

/-!
Shallow embedding of the GitHub external-authorization server
(`poc/github-authz`): the policy evaluator `checkAuthorization`, the bearer
token parser `extractBearerToken`, the read-through cache used by
`validateTokenAndGetInfo`, the `Check` endpoint, and the response renderers
`allowResponse` / `denyResponse`.

Time is modelled as a natural number, the identity provider is modelled as a
deterministic oracle (fixed responses for one credential), and the number of
outbound `GetUser` / `GetOrgNames` calls performed by an invocation is
returned explicitly so that the caching claims can be stated.
-/

deriving instance DecidableEq for Except

namespace GithubAuthz

/-- `auth.GitHubUser`: the user record returned by the identity provider. -/
structure GitHubUser where
  login : String
  id : Int
  name : String
  email : String
  avatarURL : String
  deriving Repr, DecidableEq

/-- `strings.ToLower`, as a character-wise map (exact for ASCII input, which
is all the configuration format produces). -/
def strToLower (s : String) : String := ⟨s.data.map Char.toLower⟩

/-- `strings.EqualFold`, modelled as lowercase-normalised equality. -/
def eqFold (a b : String) : Bool := strToLower a == strToLower b

/-- The whitespace class trimmed by `strings.TrimSpace` (ASCII portion). -/
def isSpaceChar (c : Char) : Bool := c = ' ' || c = '\t' || c = '\n' || c = '\r'

/-- `strings.TrimSpace`: drop leading and trailing whitespace. -/
def trimSpace (s : String) : String :=
  ⟨((s.data.dropWhile isSpaceChar).reverse.dropWhile isSpaceChar).reverse⟩

/-- `authzserver.Config`: the authorization rule configuration.
`TeamAllowList` (a Go `map[string][]string`) is modelled as an association
list; `CacheTTL` (a `time.Duration`) as a natural number of time units. -/
structure Config where
  organizationAllowList : List String
  teamAllowList : List (String × List String)
  userAllowList : List String
  userDenyList : List String
  cacheTTL : Nat
  deriving Repr, DecidableEq

/-- `authzserver.cachedUser`: one cache entry (user, orgs, expiry instant). -/
structure CachedUser where
  user : GitHubUser
  orgs : List String
  expiresAt : Nat
  deriving Repr, DecidableEq

/-- The server's `userCache` (a Go `map[string]*cachedUser`), modelled as an
association list where `List.lookup` finds the most recent insertion. -/
abbrev Cache := List (String × CachedUser)

/-- `checkAuthorization`: the policy evaluator.  Returns `none` when the user
is authorized (the Go function returns a `nil` error) and `some reason` for a
denial.  Go's `%q` verb is modelled as plain quote-wrapping, exact for
usernames without characters that `%q` would escape. -/
def checkAuthorization (cfg : Config) (username : String) (userOrgs : List String) :
    Option String :=
  if cfg.userDenyList.any (fun denied => eqFold username denied) then
    some ("user \"" ++ username ++ "\" is in the deny list")
  else if cfg.userAllowList.any (fun allowed => eqFold username allowed) then
    none
  else if cfg.organizationAllowList.isEmpty then
    none
  else
    let userOrgSet := userOrgs.map strToLower
    match cfg.organizationAllowList.find? (fun org => userOrgSet.contains (strToLower org)) with
    | some allowedOrg =>
        -- the Go code looks up the team restriction for `allowedOrg` but only
        -- logs it (TODO in source); the verdict is unconditionally allow
        let _teams := cfg.teamAllowList.lookup allowedOrg
        none
    | none =>
        some ("user \"" ++ username ++ "\" is not a member of any allowed organization")

/-- Split a character list at the first space: the part before it, and
(when a space exists) the part after it. -/
def splitFirstSpaceChars : List Char → List Char × Option (List Char)
  | [] => ([], none)
  | c :: cs =>
      if c = ' ' then ([], some cs)
      else
        let r := splitFirstSpaceChars cs
        (c :: r.1, r.2)

/-- `strings.SplitN(s, " ", 2)`: one part when `s` has no space, otherwise
the part before the first space and everything after it. -/
def splitFirstSpace (s : String) : List String :=
  match splitFirstSpaceChars s.data with
  | (beforePart, none) => [⟨beforePart⟩]
  | (beforePart, some afterPart) => [⟨beforePart⟩, ⟨afterPart⟩]

/-- `extractBearerToken`: parse a `Bearer <token>` header value. -/
def extractBearerToken (authHeader : String) : Except String String :=
  match splitFirstSpace authHeader with
  | [scheme, rest] =>
      if eqFold scheme "bearer" then
        let token := trimSpace rest
        if token == "" then Except.error "empty token" else Except.ok token
      else
        Except.error ("expected Bearer token, got " ++ scheme)
  | _ => Except.error "invalid Authorization header format"

/-- The identity provider, as a deterministic oracle for one credential:
what `client.GetUser` and `client.GetOrgNames` would return. -/
structure Provider where
  getUser : Except String GitHubUser
  getOrgNames : Except String (List String)

/-- The cache read performed by `validateTokenAndGetInfo`:
a hit requires an entry whose expiry is strictly in the future
(`time.Now().Before(cached.expiresAt)`). -/
def cacheLookup (cache : Cache) (token : String) (now : Nat) :
    Option (GitHubUser × List String) :=
  match cache.lookup token with
  | some cached => if now < cached.expiresAt then some (cached.user, cached.orgs) else none
  | none => none

/-- The cache write performed by `validateTokenAndGetInfo`:
insert/overwrite with `expiresAt = now + ttl`. -/
def cacheStore (cache : Cache) (token : String) (user : GitHubUser)
    (orgs : List String) (now ttl : Nat) : Cache :=
  (token, ⟨user, orgs, now + ttl⟩) :: cache

/-- Result of one `validateTokenAndGetInfo` invocation: the Go return value,
the cache state afterwards, and how many outbound `GetUser` / `GetOrgNames`
calls were made. -/
structure ResolveOutcome where
  result : Except String (GitHubUser × List String)
  cache : Cache
  userCalls : Nat
  orgCalls : Nat

/-- The organization list actually used after the `GetOrgNames` call: on
failure the code logs a warning and continues with an empty list. -/
def orgsOrEmpty (p : Provider) : List String :=
  match p.getOrgNames with
  | Except.error _ => []  -- "Continue without org info"
  | Except.ok os => os

/-- `validateTokenAndGetInfo`: serve from the cache when fresh; otherwise call
`GetUser` (failure aborts), then `GetOrgNames` (failure degrades to an empty
organization list), and cache the pair for `cfg.cacheTTL`. -/
def validateTokenAndGetInfo (cfg : Config) (cache : Cache) (p : Provider)
    (token : String) (now : Nat) : ResolveOutcome :=
  match cacheLookup cache token now with
  | some (user, orgs) => ⟨Except.ok (user, orgs), cache, 0, 0⟩
  | none =>
      match p.getUser with
      | Except.error e => ⟨Except.error ("failed to validate token: " ++ e), cache, 1, 0⟩
      | Except.ok user =>
          let orgs := orgsOrEmpty p
          ⟨Except.ok (user, orgs), cacheStore cache token user orgs now cfg.cacheTTL, 1, 1⟩

/-- `google.golang.org/grpc/codes.Code`, restricted to the codes this server
can place in a response plus a representative other code. -/
inductive GrpcCode where
  | ok
  | unauthenticated
  | permissionDenied
  | internal
  deriving Repr, DecidableEq

/-- `codes.Code.String()` for the modelled codes. -/
def GrpcCode.string : GrpcCode → String
  | .ok => "OK"
  | .unauthenticated => "Unauthenticated"
  | .permissionDenied => "PermissionDenied"
  | .internal => "Internal"

/-- `authv3.DeniedHttpResponse`: HTTP status, body, and response headers. -/
structure DeniedHttpResponse where
  statusCode : Nat
  body : String
  headers : List (String × String)
  deriving Repr, DecidableEq

/-- The `http_response` oneof of `authv3.CheckResponse`. -/
inductive HttpResponseKind where
  | okResponse (headers : List (String × String))
  | deniedResponse (d : DeniedHttpResponse)
  deriving Repr, DecidableEq

/-- `authv3.CheckResponse`: gRPC status (code, message) plus HTTP response. -/
structure CheckResponse where
  statusCode : GrpcCode
  statusMessage : String
  httpResponse : HttpResponseKind
  deriving Repr, DecidableEq

/-- `denyResponse`: `Unauthenticated` maps to HTTP 401, every other code to
HTTP 403; the body is produced by
`fmt.Sprintf` of the literal format string, with no JSON escaping of the
message. -/
def denyResponse (code : GrpcCode) (message : String) : CheckResponse :=
  let httpStatus : Nat := if code = GrpcCode.unauthenticated then 401 else 403
  { statusCode := code
    statusMessage := message
    httpResponse := HttpResponseKind.deniedResponse
      { statusCode := httpStatus
        body := "\x7b\"error\": \"" ++ code.string ++ "\", \"message\": \"" ++ message ++ "\"\x7d"
        headers := [("content-type", "application/json")] } }

/-- `allowResponse`: OK status plus the identity headers injected downstream. -/
def allowResponse (user : GitHubUser) (orgs : List String) : CheckResponse :=
  { statusCode := GrpcCode.ok
    statusMessage := ""
    httpResponse := HttpResponseKind.okResponse
      [("x-github-user", user.login),
       ("x-github-user-id", toString user.id),
       ("x-github-orgs", String.intercalate "," orgs),
       ("x-auth-method", "github-oauth")] }

/-- Result of one `Check` invocation: the response, the cache state
afterwards, and the outbound call counts of the embedded resolution. -/
structure CheckOutcome where
  response : CheckResponse
  cache : Cache
  userCalls : Nat
  orgCalls : Nat

/-- `Check`: the ext_authz entry point.  The Go code reads
`httpReq.GetHeaders()["authorization"]` — an exact map lookup on the
lowercase key, whose zero value is the empty string when the key is absent. -/
def Check (cfg : Config) (cache : Cache) (p : Provider)
    (headers : List (String × String)) (now : Nat) : CheckOutcome :=
  let authHeader := (headers.lookup "authorization").getD ""
  if authHeader == "" then
    ⟨denyResponse GrpcCode.unauthenticated "missing Authorization header", cache, 0, 0⟩
  else
    match extractBearerToken authHeader with
    | Except.error e => ⟨denyResponse GrpcCode.unauthenticated e, cache, 0, 0⟩
    | Except.ok token =>
        let r := validateTokenAndGetInfo cfg cache p token now
        match r.result with
        | Except.error e =>
            ⟨denyResponse GrpcCode.unauthenticated ("invalid token: " ++ e),
             r.cache, r.userCalls, r.orgCalls⟩
        | Except.ok (user, orgs) =>
            match checkAuthorization cfg user.login orgs with
            | some reason =>
                ⟨denyResponse GrpcCode.permissionDenied reason,
                 r.cache, r.userCalls, r.orgCalls⟩
            | none => ⟨allowResponse user orgs, r.cache, r.userCalls, r.orgCalls⟩

/-- The HTTP status carried by a denied response, if the response is a deny. -/
def responseHttpStatus (r : CheckResponse) : Option Nat :=
  match r.httpResponse with
  | HttpResponseKind.deniedResponse d => some d.statusCode
  | _ => none

/-- The body carried by a denied response, if the response is a deny. -/
def responseBody (r : CheckResponse) : Option String :=
  match r.httpResponse with
  | HttpResponseKind.deniedResponse d => some d.body
  | _ => none

/-- The headers carried by a denied response, if the response is a deny. -/
def responseDenyHeaders (r : CheckResponse) : Option (List (String × String)) :=
  match r.httpResponse with
  | HttpResponseKind.deniedResponse d => some d.headers
  | _ => none

/-! ## Helper lemmas -/

theorem eqFold_iff (a b : String) : eqFold a b = true ↔ strToLower a = strToLower b := by
  simp [eqFold]

theorem orgContains_iff (orgs : List String) (ao : String) :
    (orgs.map strToLower).contains (strToLower ao) = true ↔
      ∃ o ∈ orgs, eqFold o ao = true := by
  rw [List.contains, List.elem_iff, List.mem_map]
  constructor
  · rintro ⟨o, ho, heq⟩
    exact ⟨o, ho, by simp [eqFold, heq]⟩
  · rintro ⟨o, ho, heq⟩
    exact ⟨o, ho, by simpa [eqFold] using heq⟩

theorem anyFold_false {l : List String} {u : String}
    (h : ∀ d ∈ l, eqFold u d = false) :
    (l.any fun x => eqFold u x) = false := by
  rw [List.any_eq_false]
  intro x hx
  simp [h x hx]

/-! ## Claim theorems -/

/-- Claim C1: whenever the username case-insensitively matches an entry of the
configured user deny-list, `checkAuthorization` denies with the deny-list
reason, regardless of the allow lists and of organization membership. -/
theorem checkAuthorization_denyList_overrides (cfg : Config) (username : String)
    (orgs : List String) (h : ∃ d ∈ cfg.userDenyList, eqFold username d = true) :
    checkAuthorization cfg username orgs =
      some ("user \"" ++ username ++ "\" is in the deny list") := by
  have hany : (cfg.userDenyList.any fun denied => eqFold username denied) = true := by
    rw [List.any_eq_true]; exact h
  unfold checkAuthorization
  simp [hany]

/-- Witness for C1: user `carol` with deny-list entry `Carol` is denied even
though she is on the user allow-list and a member of the allowed org. -/
theorem checkAuthorization_denyList_overrides_witness :
    checkAuthorization ⟨["acme"], [], ["carol"], ["Carol"], 300⟩ "carol" ["acme"] =
      some "user \"carol\" is in the deny list" :=
  checkAuthorization_denyList_overrides ⟨["acme"], [], ["carol"], ["Carol"], 300⟩
    "carol" ["acme"] ⟨"Carol", by decide, by decide⟩

/-- Claim C3: a username not on the deny-list that case-insensitively matches
an entry of the user allow-list is allowed, independent of the organization
allow-list and of the identity's memberships. -/
theorem checkAuthorization_allowList_bypasses_orgs (cfg : Config) (username : String)
    (orgs : List String)
    (hd : ∀ d ∈ cfg.userDenyList, eqFold username d = false)
    (ha : ∃ a ∈ cfg.userAllowList, eqFold username a = true) :
    checkAuthorization cfg username orgs = none := by
  have hany : (cfg.userAllowList.any fun allowed => eqFold username allowed) = true := by
    rw [List.any_eq_true]; exact ha
  unfold checkAuthorization
  simp [anyFold_false hd, hany]

/-- Witness for C3: `Admin-User` matches allow-list entry `admin-user` and is
allowed despite belonging to none of the allowed organizations. -/
theorem checkAuthorization_allowList_bypasses_orgs_witness :
    checkAuthorization ⟨["acme"], [], ["admin-user"], ["blocked"], 300⟩
      "Admin-User" ["other"] = none :=
  checkAuthorization_allowList_bypasses_orgs
    ⟨["acme"], [], ["admin-user"], ["blocked"], 300⟩ "Admin-User" ["other"]
    (by decide) ⟨"admin-user", by decide, by decide⟩

/-- Claim C2: for a username on neither user list, an empty organization
allow-list means allow; a non-empty one allows exactly when some membership
case-insensitively equals some allowed organization, and otherwise denies
with the not-a-member reason. -/
theorem checkAuthorization_orgMembership (cfg : Config) (username : String)
    (orgs : List String)
    (hd : ∀ d ∈ cfg.userDenyList, eqFold username d = false)
    (ha : ∀ a ∈ cfg.userAllowList, eqFold username a = false) :
    (cfg.organizationAllowList = [] → checkAuthorization cfg username orgs = none) ∧
    (cfg.organizationAllowList ≠ [] →
      ((checkAuthorization cfg username orgs = none ↔
          ∃ o ∈ orgs, ∃ ao ∈ cfg.organizationAllowList, eqFold o ao = true) ∧
       ((¬∃ o ∈ orgs, ∃ ao ∈ cfg.organizationAllowList, eqFold o ao = true) →
          checkAuthorization cfg username orgs =
            some ("user \"" ++ username ++ "\" is not a member of any allowed organization") ∧
          ∃ pre, ("user \"" ++ username ++ "\" is not a member of any allowed organization") =
            pre ++ "not a member of any allowed organization"))) := by
  have h1 := anyFold_false hd
  have h2 := anyFold_false ha
  constructor
  · intro hempty
    unfold checkAuthorization
    simp [h1, h2, hempty]
  · intro hne
    have hne2 : cfg.organizationAllowList.isEmpty = false := by
      cases hl : cfg.organizationAllowList with
      | nil => exact absurd hl hne
      | cons x xs => rfl
    have heval : checkAuthorization cfg username orgs =
        (match cfg.organizationAllowList.find?
            (fun org => (orgs.map strToLower).contains (strToLower org)) with
         | some _ => none
         | none =>
             some ("user \"" ++ username ++
               "\" is not a member of any allowed organization")) := by
      unfold checkAuthorization
      simp [h1, h2, hne2]
    cases hfind : cfg.organizationAllowList.find?
        (fun org => (orgs.map strToLower).contains (strToLower org)) with
    | some a =>
        have hpa : (orgs.map strToLower).contains (strToLower a) = true := by
          simpa using List.find?_some hfind
        have hmem : a ∈ cfg.organizationAllowList := List.mem_of_find?_eq_some hfind
        obtain ⟨o, ho, hfold⟩ := (orgContains_iff orgs a).mp hpa
        refine ⟨⟨fun _ => ⟨o, ho, a, hmem, hfold⟩, fun _ => ?_⟩, fun hnone => ?_⟩
        · rw [heval, hfind]
        · exact absurd ⟨o, ho, a, hmem, hfold⟩ hnone
    | none =>
        have hall := List.find?_eq_none.mp hfind
        have hnoex : ¬∃ o ∈ orgs, ∃ ao ∈ cfg.organizationAllowList,
            eqFold o ao = true := by
          rintro ⟨o, ho, ao, hao, hfold⟩
          exact hall ao hao ((orgContains_iff orgs ao).mpr ⟨o, ho, hfold⟩)
        refine ⟨⟨fun hnoneEq => ?_, fun hex => absurd hex hnoex⟩, fun _ => ⟨?_, ?_⟩⟩
        · rw [heval, hfind] at hnoneEq
          cases hnoneEq
        · rw [heval, hfind]
        · have hsplit : ("\" is " ++ "not a member of any allowed organization" : String) =
              "\" is not a member of any allowed organization" := rfl
          refine ⟨"user \"" ++ username ++ "\" is ", ?_⟩
          rw [String.append_assoc ("user \"" ++ username) "\" is "
              "not a member of any allowed organization", hsplit]

/-- Witness for C2: under config `orgAllow = [acme]` with empty user lists,
`alice` with memberships `[Acme, other]` is allowed and `bob` with
memberships `[other]` is denied with the not-a-member reason. -/
theorem checkAuthorization_orgMembership_witness :
    checkAuthorization ⟨["acme"], [], [], [], 300⟩ "alice" ["Acme", "other"] = none ∧
    checkAuthorization ⟨["acme"], [], [], [], 300⟩ "bob" ["other"] =
      some "user \"bob\" is not a member of any allowed organization" := by
  constructor
  · exact (((checkAuthorization_orgMembership ⟨["acme"], [], [], [], 300⟩ "alice"
      ["Acme", "other"] (by decide) (by decide)).2 (by decide)).1).mpr
      ⟨"Acme", by decide, "acme", by decide, by decide⟩
  · exact (((checkAuthorization_orgMembership ⟨["acme"], [], [], [], 300⟩ "bob"
      ["other"] (by decide) (by decide)).2 (by decide)).2 (by decide)).1

/-- Claim C5: bearer-token extraction splits the header on the first space,
requires exactly two parts, a case-insensitive `bearer` scheme and a
non-empty trimmed credential; the four concrete examples evaluate as the
claim states, and a parse failure makes `Check` deny with gRPC code
Unauthenticated carrying the specific parse error. -/
theorem extractBearerToken_spec :
    extractBearerToken "Bearer abc" = Except.ok "abc" ∧
    extractBearerToken "bearer   abc  " = Except.ok "abc" ∧
    extractBearerToken "Basic abc" = Except.error "expected Bearer token, got Basic" ∧
    extractBearerToken "Bearer" = Except.error "invalid Authorization header format" ∧
    (∀ h scheme rest, splitFirstSpace h = [scheme, rest] →
        eqFold scheme "bearer" = true → trimSpace rest ≠ "" →
        extractBearerToken h = Except.ok (trimSpace rest)) ∧
    (∀ h one, splitFirstSpace h = [one] →
        extractBearerToken h = Except.error "invalid Authorization header format") ∧
    (∀ (cfg : Config) (cache : Cache) (p : Provider) (hdr e : String) (now : Nat),
        extractBearerToken hdr = Except.error e → hdr ≠ "" →
        (Check cfg cache p [("authorization", hdr)] now).response =
          denyResponse GrpcCode.unauthenticated e) := by
  refine ⟨by decide, by decide, by decide, by decide, ?_, ?_, ?_⟩
  · intro h scheme rest hsplit hfold hne
    have hbeq : (trimSpace rest == "") = false := beq_eq_false_iff_ne.mpr hne
    unfold extractBearerToken
    rw [hsplit]
    simp [hfold, hbeq]
  · intro h one hsplit
    unfold extractBearerToken
    rw [hsplit]
  · intro cfg cache p hdr e now herr hne
    have hbeq : (hdr == "") = false := beq_eq_false_iff_ne.mpr hne
    unfold Check
    simp [List.lookup, hbeq, herr]

/-- Witness for C5: a mixed-case scheme with extra spaces parses to the
trimmed credential, and a `Basic` credential makes `Check` deny with the
scheme error. -/
theorem extractBearerToken_spec_witness :
    extractBearerToken "bEaReR  tok " = Except.ok "tok" ∧
    (Check ⟨[], [], [], [], 300⟩ [] ⟨Except.error "x", Except.error "x"⟩
        [("authorization", "Basic abc")] 0).response =
      denyResponse GrpcCode.unauthenticated "expected Bearer token, got Basic" := by
  constructor
  · exact extractBearerToken_spec.2.2.2.2.1 "bEaReR  tok " "bEaReR" " tok "
      (by decide) (by decide) (by decide)
  · exact extractBearerToken_spec.2.2.2.2.2.2 ⟨[], [], [], [], 300⟩ []
      ⟨Except.error "x", Except.error "x"⟩ "Basic abc"
      "expected Bearer token, got Basic" 0 (by decide) (by decide)

/-- Counterexample to C6 as stated: a header supplied under the capitalized
name `Authorization` is not honored — even with a provider that would accept
the credential, `Check` reports the Authorization header as missing, because
the code reads the header map at the exact key `authorization`. -/
theorem Check_capitalized_header_not_honored :
    (Check ⟨[], [], [], [], 300⟩ []
        ⟨Except.ok ⟨"alice", 1, "", "", ""⟩, Except.ok ["acme"]⟩
        [("Authorization", "Bearer abc")] 0).response =
      denyResponse GrpcCode.unauthenticated "missing Authorization header" := by
  decide

/-- Claim C6 (amended): `Check` reads the header map at the exact lowercase
key `authorization` (case-insensitivity of the header name is the proxy's
normalization, not this code's); whenever that key is absent or maps to the
empty string, it returns a denial with gRPC code Unauthenticated and message
"missing Authorization header". -/
theorem Check_missing_authorization_header (cfg : Config) (cache : Cache)
    (p : Provider) (headers : List (String × String)) (now : Nat)
    (h : (headers.lookup "authorization").getD "" = "") :
    (Check cfg cache p headers now).response =
      denyResponse GrpcCode.unauthenticated "missing Authorization header" := by
  unfold Check
  simp [h]

/-- Witness for C6 (amended): a request whose only header is the capitalized
`Authorization` has no `authorization` entry, so it is denied as missing. -/
theorem Check_missing_authorization_header_witness :
    (Check ⟨[], [], [], [], 300⟩ []
        ⟨Except.ok ⟨"bob", 2, "", "", ""⟩, Except.ok []⟩
        [("Authorization", "Bearer abc"), ("x-other", "v")] 7).response =
      denyResponse GrpcCode.unauthenticated "missing Authorization header" :=
  Check_missing_authorization_header ⟨[], [], [], [], 300⟩ []
    ⟨Except.ok ⟨"bob", 2, "", "", ""⟩, Except.ok []⟩
    [("Authorization", "Bearer abc"), ("x-other", "v")] 7 (by decide)

/-- Claim C4: the verdict of `checkAuthorization` never depends on the
configured team allow-list — the evaluation with `teamAllowList` replaced by
the empty mapping is identical, so team-restricted organizations behave as if
unrestricted. -/
theorem checkAuthorization_teamAllowList_irrelevant (cfg : Config) (username : String)
    (orgs : List String) :
    checkAuthorization cfg username orgs =
      checkAuthorization { cfg with teamAllowList := [] } username orgs := rfl

/-- Claim C7: the cache lookup reports an entry absent when none exists or
when the stored expiry has been reached (so an entry is never served past
its expiry, and a miss forces a fresh `GetUser` resolution), and every store
sets the entry's expiry to the current time plus the configured validity
duration. -/
theorem cache_expiry_discipline :
    (∀ (cache : Cache) (tok : String) (now : Nat),
        cache.lookup tok = none → cacheLookup cache tok now = none) ∧
    (∀ (cache : Cache) (tok : String) (now : Nat) (e : CachedUser),
        cache.lookup tok = some e → e.expiresAt ≤ now →
        cacheLookup cache tok now = none) ∧
    (∀ (cache : Cache) (tok : String) (now : Nat) (u : GitHubUser) (orgs : List String),
        cacheLookup cache tok now = some (u, orgs) →
        ∃ e, cache.lookup tok = some e ∧ now < e.expiresAt ∧ e.user = u ∧ e.orgs = orgs) ∧
    (∀ (cfg : Config) (cache : Cache) (p : Provider) (tok : String) (now : Nat),
        cacheLookup cache tok now = none →
        (validateTokenAndGetInfo cfg cache p tok now).userCalls = 1) ∧
    (∀ (cache : Cache) (tok : String) (u : GitHubUser) (orgs : List String) (now ttl : Nat),
        (cacheStore cache tok u orgs now ttl).lookup tok = some ⟨u, orgs, now + ttl⟩) := by
  refine ⟨?_, ?_, ?_, ?_, ?_⟩
  · intro cache tok now h
    unfold cacheLookup
    rw [h]
  · intro cache tok now e h hle
    unfold cacheLookup
    rw [h]
    simp [Nat.not_lt.mpr hle]
  · intro cache tok now u orgs h
    unfold cacheLookup at h
    cases hl : cache.lookup tok with
    | none => rw [hl] at h; cases h
    | some e =>
        rw [hl] at h
        by_cases hlt : now < e.expiresAt
        · simp [hlt] at h
          exact ⟨e, rfl, hlt, h.1, h.2⟩
        · simp [hlt] at h
  · intro cfg cache p tok now h
    unfold validateTokenAndGetInfo
    rw [h]
    cases hg : p.getUser with
    | error e => rfl
    | ok u => rfl
  · intro cache tok u orgs now ttl
    unfold cacheStore
    simp [List.lookup]

/-- Witness for C7: concrete instances of each clause — empty-cache miss,
expired-entry miss, fresh hit served strictly before expiry, miss forcing one
`GetUser` call, and a store stamped `now + ttl`. -/
theorem cache_expiry_discipline_witness :
    cacheLookup [] "t" 0 = none ∧
    cacheLookup [("t", ⟨⟨"alice", 1, "", "", ""⟩, ["acme"], 5⟩)] "t" 5 = none ∧
    (∃ e, ([("t", ⟨⟨"alice", 1, "", "", ""⟩, ["acme"], 5⟩)] : Cache).lookup "t" =
        some e ∧ 4 < e.expiresAt ∧ e.user = ⟨"alice", 1, "", "", ""⟩ ∧
        e.orgs = ["acme"]) ∧
    (validateTokenAndGetInfo ⟨[], [], [], [], 300⟩ []
        ⟨Except.ok ⟨"alice", 1, "", "", ""⟩, Except.ok ["acme"]⟩ "t" 0).userCalls = 1 ∧
    (cacheStore [] "t" ⟨"alice", 1, "", "", ""⟩ ["acme"] 10 300).lookup "t" =
      some ⟨⟨"alice", 1, "", "", ""⟩, ["acme"], 310⟩ := by
  refine ⟨cache_expiry_discipline.1 [] "t" 0 (by decide),
          cache_expiry_discipline.2.1 [("t", ⟨⟨"alice", 1, "", "", ""⟩, ["acme"], 5⟩)]
            "t" 5 ⟨⟨"alice", 1, "", "", ""⟩, ["acme"], 5⟩ (by decide) (by decide),
          cache_expiry_discipline.2.2.1 [("t", ⟨⟨"alice", 1, "", "", ""⟩, ["acme"], 5⟩)]
            "t" 4 ⟨"alice", 1, "", "", ""⟩ ["acme"] (by decide),
          cache_expiry_discipline.2.2.2.1 ⟨[], [], [], [], 300⟩ []
            ⟨Except.ok ⟨"alice", 1, "", "", ""⟩, Except.ok ["acme"]⟩ "t" 0 (by decide),
          cache_expiry_discipline.2.2.2.2 [] "t" ⟨"alice", 1, "", "", ""⟩ ["acme"] 10 300⟩

/-- Claim C8: for a credential with no prior cache entry, the first `Check`
that authenticates successfully performs at most one `GetUser` call and at
most one `GetOrgNames` call; a second `Check` with the same credential within
the validity duration performs zero outbound identity-provider calls and
yields a response identical to the first. -/
theorem Check_caches_resolution (cfg : Config) (cache : Cache) (p : Provider)
    (hdr tok : String) (u : GitHubUser) (now1 now2 : Nat)
    (hparse : extractBearerToken hdr = Except.ok tok)
    (hmiss : cacheLookup cache tok now1 = none)
    (huser : p.getUser = Except.ok u)
    (hfresh : now2 < now1 + cfg.cacheTTL) :
    (Check cfg cache p [("authorization", hdr)] now1).userCalls ≤ 1 ∧
    (Check cfg cache p [("authorization", hdr)] now1).orgCalls ≤ 1 ∧
    (Check cfg (Check cfg cache p [("authorization", hdr)] now1).cache p
        [("authorization", hdr)] now2).userCalls = 0 ∧
    (Check cfg (Check cfg cache p [("authorization", hdr)] now1).cache p
        [("authorization", hdr)] now2).orgCalls = 0 ∧
    (Check cfg (Check cfg cache p [("authorization", hdr)] now1).cache p
        [("authorization", hdr)] now2).response =
      (Check cfg cache p [("authorization", hdr)] now1).response := by
  have hne : hdr ≠ "" := by
    intro h0
    rw [h0] at hparse
    simp [extractBearerToken, splitFirstSpace, splitFirstSpaceChars] at hparse
  have hbeq : (hdr == "") = false := beq_eq_false_iff_ne.mpr hne
  have hr1 : validateTokenAndGetInfo cfg cache p tok now1 =
      ⟨Except.ok (u, orgsOrEmpty p),
       cacheStore cache tok u (orgsOrEmpty p) now1 cfg.cacheTTL, 1, 1⟩ := by
    unfold validateTokenAndGetInfo
    rw [hmiss, huser]
  have hl2 : cacheLookup (cacheStore cache tok u (orgsOrEmpty p) now1 cfg.cacheTTL)
      tok now2 = some (u, orgsOrEmpty p) := by
    unfold cacheLookup cacheStore
    simp [List.lookup, hfresh]
  have hr2 : validateTokenAndGetInfo cfg
      (cacheStore cache tok u (orgsOrEmpty p) now1 cfg.cacheTTL) p tok now2 =
      ⟨Except.ok (u, orgsOrEmpty p),
       cacheStore cache tok u (orgsOrEmpty p) now1 cfg.cacheTTL, 0, 0⟩ := by
    unfold validateTokenAndGetInfo
    rw [hl2]
  cases hca : checkAuthorization cfg u.login (orgsOrEmpty p) with
  | none =>
      have hc1 : Check cfg cache p [("authorization", hdr)] now1 =
          ⟨allowResponse u (orgsOrEmpty p),
           cacheStore cache tok u (orgsOrEmpty p) now1 cfg.cacheTTL, 1, 1⟩ := by
        unfold Check
        simp [List.lookup, hbeq, hparse, hr1, hca]
      have hc2 : Check cfg (cacheStore cache tok u (orgsOrEmpty p) now1 cfg.cacheTTL) p
          [("authorization", hdr)] now2 =
          ⟨allowResponse u (orgsOrEmpty p),
           cacheStore cache tok u (orgsOrEmpty p) now1 cfg.cacheTTL, 0, 0⟩ := by
        unfold Check
        simp [List.lookup, hbeq, hparse, hr2, hca]
      rw [hc1]
      simp [hc2]
  | some reason =>
      have hc1 : Check cfg cache p [("authorization", hdr)] now1 =
          ⟨denyResponse GrpcCode.permissionDenied reason,
           cacheStore cache tok u (orgsOrEmpty p) now1 cfg.cacheTTL, 1, 1⟩ := by
        unfold Check
        simp [List.lookup, hbeq, hparse, hr1, hca]
      have hc2 : Check cfg (cacheStore cache tok u (orgsOrEmpty p) now1 cfg.cacheTTL) p
          [("authorization", hdr)] now2 =
          ⟨denyResponse GrpcCode.permissionDenied reason,
           cacheStore cache tok u (orgsOrEmpty p) now1 cfg.cacheTTL, 0, 0⟩ := by
        unfold Check
        simp [List.lookup, hbeq, hparse, hr2, hca]
      rw [hc1]
      simp [hc2]

/-- Witness for C8: user `alice` in org `acme`, credential `t` presented
twice within the 300-unit validity window — the first check resolves once,
the second is served from the cache with the identical response. -/
theorem Check_caches_resolution_witness :
    (Check ⟨[], [], [], [], 300⟩ []
        ⟨Except.ok ⟨"alice", 1, "", "", ""⟩, Except.ok ["acme"]⟩
        [("authorization", "Bearer t")] 0).userCalls ≤ 1 ∧
    (Check ⟨[], [], [], [], 300⟩ []
        ⟨Except.ok ⟨"alice", 1, "", "", ""⟩, Except.ok ["acme"]⟩
        [("authorization", "Bearer t")] 0).orgCalls ≤ 1 ∧
    (Check ⟨[], [], [], [], 300⟩
        (Check ⟨[], [], [], [], 300⟩ []
          ⟨Except.ok ⟨"alice", 1, "", "", ""⟩, Except.ok ["acme"]⟩
          [("authorization", "Bearer t")] 0).cache
        ⟨Except.ok ⟨"alice", 1, "", "", ""⟩, Except.ok ["acme"]⟩
        [("authorization", "Bearer t")] 100).userCalls = 0 ∧
    (Check ⟨[], [], [], [], 300⟩
        (Check ⟨[], [], [], [], 300⟩ []
          ⟨Except.ok ⟨"alice", 1, "", "", ""⟩, Except.ok ["acme"]⟩
          [("authorization", "Bearer t")] 0).cache
        ⟨Except.ok ⟨"alice", 1, "", "", ""⟩, Except.ok ["acme"]⟩
        [("authorization", "Bearer t")] 100).orgCalls = 0 ∧
    (Check ⟨[], [], [], [], 300⟩
        (Check ⟨[], [], [], [], 300⟩ []
          ⟨Except.ok ⟨"alice", 1, "", "", ""⟩, Except.ok ["acme"]⟩
          [("authorization", "Bearer t")] 0).cache
        ⟨Except.ok ⟨"alice", 1, "", "", ""⟩, Except.ok ["acme"]⟩
        [("authorization", "Bearer t")] 100).response =
      (Check ⟨[], [], [], [], 300⟩ []
        ⟨Except.ok ⟨"alice", 1, "", "", ""⟩, Except.ok ["acme"]⟩
        [("authorization", "Bearer t")] 0).response :=
  Check_caches_resolution ⟨[], [], [], [], 300⟩ []
    ⟨Except.ok ⟨"alice", 1, "", "", ""⟩, Except.ok ["acme"]⟩
    "Bearer t" "t" ⟨"alice", 1, "", "", ""⟩ 0 100
    (by decide) (by decide) rfl (by decide)

/-- Claim C10: when `GetUser` succeeds but `GetOrgNames` fails, the resolution
succeeds with an empty membership list and caches it for the full validity
duration; any re-resolution of the same credential within that window makes
no outbound calls and again yields the empty membership list, against which
a non-empty organization allow-list (with no user-allow-list match) can
never produce an allow. -/
theorem orgsFailure_cached_empty (cfg : Config) (cache : Cache) (p : Provider)
    (tok : String) (u : GitHubUser) (now1 now2 : Nat) (e : String)
    (hmiss : cacheLookup cache tok now1 = none)
    (huser : p.getUser = Except.ok u)
    (horgs : p.getOrgNames = Except.error e)
    (hfresh : now2 < now1 + cfg.cacheTTL) :
    (validateTokenAndGetInfo cfg cache p tok now1).result = Except.ok (u, []) ∧
    (validateTokenAndGetInfo cfg cache p tok now1).cache.lookup tok =
      some ⟨u, [], now1 + cfg.cacheTTL⟩ ∧
    (validateTokenAndGetInfo cfg
        (validateTokenAndGetInfo cfg cache p tok now1).cache p tok now2).result =
      Except.ok (u, []) ∧
    (validateTokenAndGetInfo cfg
        (validateTokenAndGetInfo cfg cache p tok now1).cache p tok now2).userCalls = 0 ∧
    (validateTokenAndGetInfo cfg
        (validateTokenAndGetInfo cfg cache p tok now1).cache p tok now2).orgCalls = 0 ∧
    (∀ acfg : Config, acfg.organizationAllowList ≠ [] →
        (∀ a ∈ acfg.userAllowList, eqFold u.login a = false) →
        checkAuthorization acfg u.login [] ≠ none) := by
  have ho : orgsOrEmpty p = [] := by
    unfold orgsOrEmpty
    rw [horgs]
  have hr1 : validateTokenAndGetInfo cfg cache p tok now1 =
      ⟨Except.ok (u, []), cacheStore cache tok u [] now1 cfg.cacheTTL, 1, 1⟩ := by
    unfold validateTokenAndGetInfo
    rw [hmiss, huser]
    simp [ho]
  have hl2 : cacheLookup (cacheStore cache tok u [] now1 cfg.cacheTTL) tok now2 =
      some (u, []) := by
    unfold cacheLookup cacheStore
    simp [List.lookup, hfresh]
  have hr2 : validateTokenAndGetInfo cfg (cacheStore cache tok u [] now1 cfg.cacheTTL)
      p tok now2 =
      ⟨Except.ok (u, []), cacheStore cache tok u [] now1 cfg.cacheTTL, 0, 0⟩ := by
    unfold validateTokenAndGetInfo
    rw [hl2]
  refine ⟨by rw [hr1], ?_, by rw [hr1]; simp [hr2], by rw [hr1]; simp [hr2],
          by rw [hr1]; simp [hr2], ?_⟩
  · rw [hr1]
    unfold cacheStore
    simp [List.lookup]
  · intro acfg hne hal
    have hne2 : acfg.organizationAllowList.isEmpty = false := by
      cases hl : acfg.organizationAllowList with
      | nil => exact absurd hl hne
      | cons x xs => rfl
    have hfind : List.find? (fun _ : String => false) acfg.organizationAllowList =
        none := by
      apply List.find?_eq_none.mpr
      intro x _
      simp
    unfold checkAuthorization
    by_cases hdany : (acfg.userDenyList.any fun d => eqFold u.login d) = true
    · simp [hdany]
    · have hdany2 : (acfg.userDenyList.any fun d => eqFold u.login d) = false := by
        simpa using hdany
      simp [hdany2, anyFold_false hal, hne2, hfind]

/-- Witness for C10: `GetOrgNames` fails for user `dave`; the first resolution
caches `(dave, [])` for 300 units, the second resolution at time 100 makes no
calls, and under org allow-list `[acme]` the empty membership list is denied. -/
theorem orgsFailure_cached_empty_witness :
    (validateTokenAndGetInfo ⟨["acme"], [], [], [], 300⟩ []
        ⟨Except.ok ⟨"dave", 4, "", "", ""⟩, Except.error "boom"⟩ "t" 0).result =
      Except.ok (⟨"dave", 4, "", "", ""⟩, []) ∧
    (validateTokenAndGetInfo ⟨["acme"], [], [], [], 300⟩ []
        ⟨Except.ok ⟨"dave", 4, "", "", ""⟩, Except.error "boom"⟩ "t" 0).cache.lookup
        "t" = some ⟨⟨"dave", 4, "", "", ""⟩, [], 300⟩ ∧
    (validateTokenAndGetInfo ⟨["acme"], [], [], [], 300⟩
        (validateTokenAndGetInfo ⟨["acme"], [], [], [], 300⟩ []
          ⟨Except.ok ⟨"dave", 4, "", "", ""⟩, Except.error "boom"⟩ "t" 0).cache
        ⟨Except.ok ⟨"dave", 4, "", "", ""⟩, Except.error "boom"⟩ "t" 100).result =
      Except.ok (⟨"dave", 4, "", "", ""⟩, []) ∧
    (validateTokenAndGetInfo ⟨["acme"], [], [], [], 300⟩
        (validateTokenAndGetInfo ⟨["acme"], [], [], [], 300⟩ []
          ⟨Except.ok ⟨"dave", 4, "", "", ""⟩, Except.error "boom"⟩ "t" 0).cache
        ⟨Except.ok ⟨"dave", 4, "", "", ""⟩, Except.error "boom"⟩ "t" 100).userCalls = 0 ∧
    (validateTokenAndGetInfo ⟨["acme"], [], [], [], 300⟩
        (validateTokenAndGetInfo ⟨["acme"], [], [], [], 300⟩ []
          ⟨Except.ok ⟨"dave", 4, "", "", ""⟩, Except.error "boom"⟩ "t" 0).cache
        ⟨Except.ok ⟨"dave", 4, "", "", ""⟩, Except.error "boom"⟩ "t" 100).orgCalls = 0 ∧
    checkAuthorization ⟨["acme"], [], [], [], 300⟩ "dave" [] ≠ none := by
  have h := orgsFailure_cached_empty ⟨["acme"], [], [], [], 300⟩ []
    ⟨Except.ok ⟨"dave", 4, "", "", ""⟩, Except.error "boom"⟩ "t"
    ⟨"dave", 4, "", "", ""⟩ 0 100 "boom" (by decide) rfl rfl (by decide)
  exact ⟨h.1, h.2.1, h.2.2.1, h.2.2.2.1, h.2.2.2.2.1,
         h.2.2.2.2.2 ⟨["acme"], [], [], [], 300⟩ (by decide) (by decide)⟩

/-- Counterexample to C9 as stated: at the scenario-B input the body the code
produces has a space after each colon and does not JSON-escape the quotes
that `%q` put around `bob`, so it is not the exact body the claim states. -/
theorem denyResponse_scenarioB_body_differs :
    checkAuthorization ⟨["acme"], [], [], [], 300⟩ "bob" ["other"] =
      some "user \"bob\" is not a member of any allowed organization" ∧
    responseBody (denyResponse GrpcCode.permissionDenied
        "user \"bob\" is not a member of any allowed organization") =
      some "\x7b\"error\": \"PermissionDenied\", \"message\": \"user \"bob\" is not a member of any allowed organization\"\x7d" ∧
    responseBody (denyResponse GrpcCode.permissionDenied
        "user \"bob\" is not a member of any allowed organization") ≠
      some "\x7b\"error\":\"PermissionDenied\",\"message\":\"user \\\"bob\\\" is not a member of any allowed organization\"\x7d" := by
  exact ⟨by decide, by decide, by decide⟩

/-- Claim C9 (amended): every denial maps code Unauthenticated to HTTP 401
and every other code (including PermissionDenied) to HTTP 403, carries a
content-type: application/json header, and carries the body
`\x7b"error": "<code>", "message": "<reason>"\x7d` — with a space after each
colon and the reason interpolated verbatim without JSON escaping; at the
scenario-B input the body is therefore
`\x7b"error": "PermissionDenied", "message": "user "bob" is not a member of
any allowed organization"\x7d`. -/
theorem denyResponse_rendering (code : GrpcCode) (message : String) :
    (code = GrpcCode.unauthenticated →
      responseHttpStatus (denyResponse code message) = some 401) ∧
    (code ≠ GrpcCode.unauthenticated →
      responseHttpStatus (denyResponse code message) = some 403) ∧
    responseDenyHeaders (denyResponse code message) =
      some [("content-type", "application/json")] ∧
    responseBody (denyResponse code message) =
      some ("\x7b\"error\": \"" ++ code.string ++ "\", \"message\": \"" ++
        message ++ "\"\x7d") := by
  refine ⟨?_, ?_, rfl, rfl⟩
  · intro h
    subst h
    rfl
  · intro h
    unfold denyResponse responseHttpStatus
    simp [h]

/-- Witness for C9 (amended): the scenario-B denial renders with HTTP 403 and
the code's actual body, and an Unauthenticated denial renders with HTTP 401. -/
theorem denyResponse_rendering_witness :
    responseHttpStatus (denyResponse GrpcCode.permissionDenied
      "user \"bob\" is not a member of any allowed organization") = some 403 ∧
    responseBody (denyResponse GrpcCode.permissionDenied
      "user \"bob\" is not a member of any allowed organization") =
      some "\x7b\"error\": \"PermissionDenied\", \"message\": \"user \"bob\" is not a member of any allowed organization\"\x7d" ∧
    responseHttpStatus (denyResponse GrpcCode.unauthenticated
      "missing Authorization header") = some 401 :=
  ⟨(denyResponse_rendering GrpcCode.permissionDenied
      "user \"bob\" is not a member of any allowed organization").2.1 (by decide),
   (denyResponse_rendering GrpcCode.permissionDenied
      "user \"bob\" is not a member of any allowed organization").2.2.2,
   (denyResponse_rendering GrpcCode.unauthenticated
      "missing Authorization header").1 rfl⟩

end GithubAuthz
